import Mathlib

/-!
Verification development for the argocd-notifier operator.

The TypeScript sources are shallowly embedded as Lean definitions:
JavaScript runtime values that flow through the structural-diff utilities
are modelled by the inductive type `JsValue` (primitives collapsed to
strings, since the code only ever compares them for strict equality),
fallible external calls are modelled by `Option` results, and the two
stateful components (the ArgoCD application resource manager and the
custom-resource operator) become pure step functions over explicit state.
-/

namespace ArgocdNotifier

/-- Model of a JavaScript value as it flows through the diff utilities
(src/utils/deep-compare, src/utils/filter-changes).  Primitive values
(strings, numbers, booleans) are collapsed into `prim` carrying their
printed form: the code only ever tests them with strict equality, never
arithmetic, so this is faithful for every comparison the code performs.
Objects are insertion-ordered key/value lists, as in the JS runtime. -/
inductive JsValue where
  | undef : JsValue
  | null : JsValue
  | prim : String → JsValue
  | arr : List JsValue → JsValue
  | obj : List (String × JsValue) → JsValue
deriving Repr

/-- Keys of an object field list, in insertion order (JS `Object.keys`). -/
def jsKeys (f : List (String × JsValue)) : List String :=
  f.map Prod.fst

/-- Property read with the JS default: `o[k]` is `undefined` when the key
is absent.  First binding wins, as JS objects never hold duplicate keys. -/
def lookupD (f : List (String × JsValue)) (k : String) : JsValue :=
  match f.find? (fun e => e.1 == k) with
  | some e => e.2
  | none => JsValue.undef

/-- Key-presence test, JS `k in o`. -/
def hasKey (f : List (String × JsValue)) (k : String) : Bool :=
  f.any (fun e => e.1 == k)

/-- Test for the JS value `undefined` (strict comparison `=== undefined`). -/
def isUndef : JsValue → Bool
  | JsValue.undef => true
  | _ => false

theorem sizeOf_snd_lt_of_mem {e : String × JsValue} {f : List (String × JsValue)}
    (h : e ∈ f) : sizeOf e.2 < sizeOf f := by
  induction f with
  | nil => cases h
  | cons a rest ih =>
    rcases List.mem_cons.mp h with h1 | h2
    · subst h1
      cases e with
      | mk k v => simp only [Prod.mk.sizeOf_spec, List.cons.sizeOf_spec]; omega
    · have := ih h2
      simp only [List.cons.sizeOf_spec]
      omega

theorem sizeOf_lookupD_lt (f : List (String × JsValue)) (k : String) :
    sizeOf (lookupD f k) < 1 + sizeOf f := by
  unfold lookupD
  split
  · next e hf =>
      have hm : e ∈ f := List.mem_of_find?_eq_some hf
      have := sizeOf_snd_lt_of_mem hm
      omega
  · simp only [JsValue.undef.sizeOf_spec]
    cases f <;> simp only [List.nil.sizeOf_spec, List.cons.sizeOf_spec] <;> omega

mutual

/-- Embedding of `deepCompare` (src/utils/deep-compare.ts) together with
its helper `objectsEqual`, inlined in the `obj`/`obj` branch.  The JS
top-level shortcut `obj1 === obj2` is covered by the structural branches:
strict equality of primitives is the `prim` branch, and reference-equal
composites compare equal through the structural branches as well, so the
result agrees with the JS function on every pair of tree values.
`List.dedup` plays the role of the `Set` of all unique keys; `List.all`
over a key list only depends on the set of keys. -/
def deepCompare (allow : Bool) : JsValue → JsValue → Bool
  | JsValue.undef, JsValue.undef => true
  | JsValue.null, JsValue.null => true
  | JsValue.prim s, JsValue.prim t => s == t
  | JsValue.arr xs, JsValue.arr ys => deepCompareList allow xs ys
  | JsValue.obj f1, JsValue.obj f2 =>
      ((jsKeys f1 ++ jsKeys f2).dedup).all (fun k =>
        if allow && (!(hasKey f1 k) || !(hasKey f2 k)) then
          (isUndef (lookupD f1 k) && !(hasKey f2 k))
            || (isUndef (lookupD f2 k) && !(hasKey f1 k))
        else
          deepCompare allow (lookupD f1 k) (lookupD f2 k))
  | _, _ => false
termination_by a _ => sizeOf a
decreasing_by
  · simp only [JsValue.arr.sizeOf_spec]; omega
  · exact lt_of_lt_of_le (sizeOf_lookupD_lt f1 k)
      (by simp only [JsValue.obj.sizeOf_spec]; omega)

/-- Embedding of `arraysEqual` (src/utils/deep-compare.ts): the length
check plus the element-wise `every` is exactly this pairwise recursion. -/
def deepCompareList (allow : Bool) : List JsValue → List JsValue → Bool
  | [], [] => true
  | x :: xs, y :: ys => deepCompare allow x y && deepCompareList allow xs ys
  | _, _ => false
termination_by xs _ => sizeOf xs
decreasing_by
  · simp only [List.cons.sizeOf_spec]; omega
  · simp only [List.cons.sizeOf_spec]; omega

end

/-- Helper for `filterChanges`: record a nested ChangeSet under key `k`
only when it is non-empty (`Object.keys(nestedChanges).length > 0`). -/
def nestedEntry (k : String) (nested : List (String × JsValue)) :
    List (String × JsValue) :=
  if nested.isEmpty then [] else [(k, JsValue.obj nested)]

mutual

/-- Embedding of `filterChanges` (src/utils/filter-changes.ts) on object
field lists.  The JS loop visits each key of `partial` once (JS objects
never hold duplicate keys) and assigns `changes[key]` at most once, so the
accumulated `changes` object is exactly the in-order concatenation of the
per-key contributions computed by `filterOne`. -/
def filterChanges : List (String × JsValue) → List (String × JsValue) → List (String × JsValue)
  | [], _ => []
  | (k, pv) :: rest, original =>
    filterOne k pv (lookupD original k) ++ filterChanges rest original
termination_by p _ => sizeOf p
decreasing_by
  · simp only [List.cons.sizeOf_spec, Prod.mk.sizeOf_spec]; omega
  · simp only [List.cons.sizeOf_spec]; omega

/-- Body of one `filterChanges` loop iteration: `pv` is `partial[key]`,
`ov` is `original[key]`. -/
def filterOne (k : String) (pv ov : JsValue) : List (String × JsValue) :=
  if deepCompare true pv ov then []
  else
    match pv, ov with
    | JsValue.obj pf, JsValue.obj og => nestedEntry k (filterChanges pf og)
    | _, _ => if !(deepCompare false ov pv) then [(k, pv)] else []
termination_by sizeOf pv
decreasing_by
  · simp only [JsValue.obj.sizeOf_spec]; omega

end

/-- Two JS values with the same content: equal primitives, arrays of equal
length related pointwise, and objects whose lookups agree on every key
regardless of key order, a key that is missing on one side standing for an
explicit `undefined` on the other. -/
inductive SameContent : JsValue → JsValue → Prop where
  | undef : SameContent JsValue.undef JsValue.undef
  | null : SameContent JsValue.null JsValue.null
  | prim (s : String) : SameContent (JsValue.prim s) (JsValue.prim s)
  | arr (xs ys : List JsValue) (hlen : xs.length = ys.length)
      (h : ∀ (i : Nat) (h1 : i < xs.length) (h2 : i < ys.length),
        SameContent (xs.get ⟨i, h1⟩) (ys.get ⟨i, h2⟩)) :
      SameContent (JsValue.arr xs) (JsValue.arr ys)
  | obj (f1 f2 : List (String × JsValue))
      (h : ∀ k : String, SameContent (lookupD f1 k) (lookupD f2 k)) :
      SameContent (JsValue.obj f1) (JsValue.obj f2)

theorem sameContent_left_undef {v : JsValue} (h : SameContent JsValue.undef v) :
    v = JsValue.undef := by cases h; rfl

theorem sameContent_right_undef {v : JsValue} (h : SameContent v JsValue.undef) :
    v = JsValue.undef := by cases h; rfl

theorem lookupD_eq_undef_of_not_hasKey {f : List (String × JsValue)} {k : String}
    (h : hasKey f k = false) : lookupD f k = JsValue.undef := by
  have hf : f.find? (fun e => e.1 == k) = none := by
    rw [List.find?_eq_none]
    intro e he
    have := List.any_eq_false.mp h e he
    simpa using this
  unfold lookupD
  rw [hf]

theorem lookupD_eq_of_mem {f : List (String × JsValue)} {k : String} {v : JsValue}
    (hnd : (jsKeys f).Nodup) (hm : (k, v) ∈ f) : lookupD f k = v := by
  induction f with
  | nil => cases hm
  | cons e rest ih =>
    rcases List.mem_cons.mp hm with h1 | h2
    · rw [← h1]
      unfold lookupD
      simp [List.find?]
    · have hk : k ∈ jsKeys rest := by
        have : (k, v).1 ∈ rest.map Prod.fst := List.mem_map_of_mem Prod.fst h2
        simpa [jsKeys] using this
      have hnr : (jsKeys rest).Nodup := by
        simpa [jsKeys] using (List.nodup_cons.mp (by simpa [jsKeys] using hnd)).2
      have hne : (e.1 == k) = false := by
        have hnot : e.1 ∉ jsKeys rest := (List.nodup_cons.mp (by simpa [jsKeys] using hnd)).1
        have : e.1 ≠ k := fun hEq => hnot (hEq ▸ hk)
        simpa using this
      unfold lookupD
      simp only [List.find?, hne]
      exact ih hnr h2

theorem deepCompareList_eq_true {xs ys : List JsValue} (hlen : xs.length = ys.length)
    (h : ∀ (i : Nat) (h1 : i < xs.length) (h2 : i < ys.length),
      deepCompare true (xs.get ⟨i, h1⟩) (ys.get ⟨i, h2⟩) = true) :
    deepCompareList true xs ys = true := by
  induction xs generalizing ys with
  | nil =>
    cases ys with
    | nil => simp [deepCompareList]
    | cons y ys => simp at hlen
  | cons x xs ih =>
    cases ys with
    | nil => simp at hlen
    | cons y ys =>
      have h0 : deepCompare true x y = true := by simpa using h 0 (by simp) (by simp)
      have hrest := ih (by simpa using hlen)
        (fun i h1 h2 => h (i + 1) (by simpa using h1) (by simpa using h2))
      simp [deepCompareList, h0, hrest]

theorem deepCompare_eq_true_of_sameContent {a b : JsValue} (h : SameContent a b) :
    deepCompare true a b = true := by
  induction h with
  | undef => simp [deepCompare]
  | null => simp [deepCompare]
  | prim s => simp [deepCompare]
  | arr xs ys hlen hpt ih =>
    simp only [deepCompare]
    exact deepCompareList_eq_true hlen ih
  | obj f1 f2 hpt ih =>
    simp only [deepCompare, List.all_eq_true]
    intro k hk
    by_cases h1 : hasKey f1 k = true
    · by_cases h2 : hasKey f2 k = true
      · simp [h1, h2, ih k]
      · have h2f : hasKey f2 k = false := by simpa using h2
        have e2 : lookupD f2 k = JsValue.undef := lookupD_eq_undef_of_not_hasKey h2f
        have e1 : lookupD f1 k = JsValue.undef := by
          have hc := hpt k
          rw [e2] at hc
          exact sameContent_right_undef hc
        simp [h1, h2f, e1, isUndef]
    · have h1f : hasKey f1 k = false := by simpa using h1
      have e1 : lookupD f1 k = JsValue.undef := lookupD_eq_undef_of_not_hasKey h1f
      have e2 : lookupD f2 k = JsValue.undef := by
        have hc := hpt k
        rw [e1] at hc
        exact sameContent_left_undef hc
      simp [h1f, e2, isUndef]

theorem filterOne_eq_nil {k : String} {pv ov : JsValue}
    (h : deepCompare true pv ov = true) : filterOne k pv ov = [] := by
  unfold filterOne
  simp [h]

theorem filterChanges_eq_nil {p o : List (String × JsValue)}
    (h : ∀ e ∈ p, deepCompare true e.2 (lookupD o e.1) = true) :
    filterChanges p o = [] := by
  induction p with
  | nil => simp [filterChanges]
  | cons e rest ih =>
    cases e with
    | mk k pv =>
      have hk := h (k, pv) (List.mem_cons_self _ _)
      have hrest := ih (fun e he => h e (List.mem_cons_of_mem _ he))
      simp only at hk
      simp [filterChanges, filterOne_eq_nil hk, hrest]

/-- C7: for every pair of spec objects containing the same keys and leaf
values, with keys possibly in different orders, and where a key missing on
one side corresponds to an undefined value on the other, `filterChanges`
returns an empty ChangeSet. -/
theorem filterChanges_empty_of_sameContent (p o : List (String × JsValue))
    (hnd : (jsKeys p).Nodup) (h : SameContent (JsValue.obj p) (JsValue.obj o)) :
    filterChanges p o = [] := by
  have hpt : ∀ k, SameContent (lookupD p k) (lookupD o k) := by
    cases h with | obj _ _ h => exact h
  refine filterChanges_eq_nil (fun e he => ?_)
  have hl : lookupD p e.1 = e.2 := lookupD_eq_of_mem hnd (by cases e; exact he)
  have hc := hpt e.1
  rw [hl] at hc
  exact deepCompare_eq_true_of_sameContent hc

/-- Example pair for the C7 witness: same content, keys in different
orders, and the key `b` explicitly undefined on one side while the key
order differs. -/
def sameContentExP : List (String × JsValue) :=
  [("a", JsValue.prim "1"), ("b", JsValue.undef)]

/-- Companion object of `sameContentExP` with reversed key order and the
explicitly-undefined key missing entirely. -/
def sameContentExO : List (String × JsValue) :=
  [("a", JsValue.prim "1")]

theorem sameContentEx : SameContent (JsValue.obj sameContentExP) (JsValue.obj sameContentExO) := by
  apply SameContent.obj
  intro k
  by_cases ha : k = "a"
  · subst ha
    have h1 : lookupD sameContentExP "a" = JsValue.prim "1" := rfl
    have h2 : lookupD sameContentExO "a" = JsValue.prim "1" := rfl
    rw [h1, h2]
    exact SameContent.prim "1"
  · have ha2 : (("a" : String) == k) = false := by
      simp only [beq_eq_false_iff_ne]
      exact fun hEq => ha hEq.symm
    by_cases hb : k = "b"
    · subst hb
      have h1 : lookupD sameContentExP "b" = JsValue.undef := rfl
      have h2 : lookupD sameContentExO "b" = JsValue.undef := by
        unfold lookupD sameContentExO
        simp [List.find?, ha2]
      rw [h1, h2]
      exact SameContent.undef
    · have hb2 : (("b" : String) == k) = false := by
        simp only [beq_eq_false_iff_ne]
        exact fun hEq => hb hEq.symm
      have h1 : lookupD sameContentExP k = JsValue.undef := by
        unfold lookupD sameContentExP
        simp [List.find?, ha2, hb2]
      have h2 : lookupD sameContentExO k = JsValue.undef := by
        unfold lookupD sameContentExO
        simp [List.find?, ha2]
      rw [h1, h2]
      exact SameContent.undef

/-- Witness for C7 at a concrete pair of objects: the hypotheses hold and
the ChangeSet is empty. -/
theorem filterChanges_empty_of_sameContent_witness :
    (jsKeys sameContentExP).Nodup
    ∧ SameContent (JsValue.obj sameContentExP) (JsValue.obj sameContentExO)
    ∧ filterChanges sameContentExP sameContentExO = [] :=
  ⟨by decide, sameContentEx,
    filterChanges_empty_of_sameContent sameContentExP sameContentExO (by decide) sameContentEx⟩

/-- Modelled from the spec: the raw watch phases delivered by the inbound
stream (spec section 6: ADDED, MODIFIED, DELETED, ERROR).  The enum file
src/enums/resource-event-type.enum.ts is not part of the source snapshot;
only its importers are. -/
inductive ResourceEventType where
  | Added
  | Modified
  | Deleted
  | Error
deriving Repr, DecidableEq

/-- Embedding of RefinedEventType (src/enums/refined-event-type.enum.ts):
the raw phases plus the two locally refined phases. -/
inductive RefinedEventType where
  | Added
  | Modified
  | Deleted
  | Error
  | Deleting
  | UpToDate
deriving Repr, DecidableEq

/-- Injection of a raw phase into the refined enum (the spread
`...ResourceEventType` in refined-event-type.enum.ts). -/
def RefinedEventType.ofRaw : ResourceEventType → RefinedEventType
  | ResourceEventType.Added => RefinedEventType.Added
  | ResourceEventType.Modified => RefinedEventType.Modified
  | ResourceEventType.Deleted => RefinedEventType.Deleted
  | ResourceEventType.Error => RefinedEventType.Error

/-- Embedding of ArgoCdHealthStatus (src/enums/argocd.enum.ts). -/
inductive ArgoCdHealthStatus where
  | Healthy
  | Progressing
  | Degraded
  | Suspended
  | Missing
  | N_A
deriving Repr, DecidableEq

/-- Embedding of ArgoCdSyncStatus (src/enums/argocd.enum.ts). -/
inductive ArgoCdSyncStatus where
  | Synced
  | OutOfSync
  | Unknown
  | N_A
deriving Repr, DecidableEq

/-- Object metadata as read by the operator core
(src/interfaces/my-custom-resource.interface.ts): `name` is required,
`generation` and `deletionTimestamp` are optional. -/
structure AppMetadata where
  name : String
  generation : Option Nat
  deletionTimestamp : Option String
deriving Repr

/-- The parts of the ArgoCD application status the core reads:
`health.status` and `sync.status` flattened into one record, plus the
optional `observedGeneration` (dtos/argocd-application.dto.ts). -/
structure AppStatus where
  healthStatus : ArgoCdHealthStatus
  syncStatus : ArgoCdSyncStatus
  observedGeneration : Option Nat
deriving Repr

/-- A watched custom resource: metadata, the declarative `spec` kept as a
raw JS object (it is diffed structurally), and the optional `status`. -/
structure AppResource where
  metadata : AppMetadata
  spec : JsValue
  status : Option AppStatus
deriving Repr

/-- A raw watch event (src/interfaces/resource-event.interface.ts). -/
structure ResourceEvent where
  type : ResourceEventType
  object : AppResource
deriving Repr

/-- Embedding of `getRefinedEventType`
(src/utils/get-refined-event-type.ts).  The JS comparison
`event.object.status?.observedGeneration === event.object.metadata?.generation`
is equality of the two optional numbers; in particular it is true when
both are absent (`undefined === undefined`). -/
def getRefinedEventType (event : ResourceEvent) : RefinedEventType :=
  if event.type = ResourceEventType.Deleted then RefinedEventType.Deleted
  else
    let isMarkedForDeletion := event.object.metadata.deletionTimestamp.isSome
    let isUpToDate :=
      (Option.bind event.object.status AppStatus.observedGeneration)
        = event.object.metadata.generation
    if isMarkedForDeletion then RefinedEventType.Deleting
    else if isUpToDate then RefinedEventType.UpToDate
    else RefinedEventType.ofRaw event.type

/-- Event exhibiting the divergence for C4: raw phase Added, no deletion
timestamp, no status object and no metadata generation. -/
def evC4 : ResourceEvent :=
  { type := ResourceEventType.Added,
    object :=
      { metadata := { name := "app1", generation := none, deletionTimestamp := none },
        spec := JsValue.obj [],
        status := none } }

/-- C4 counterexample: for `evC4` the raw phase is not Deleted, there is
no deletion timestamp, and `observedGeneration` is absent (so the claim
requires the refined type to equal the raw phase Added), yet the code
refines it to UpToDate because `undefined === undefined` holds. -/
theorem getRefinedEventType_presence_counterexample :
    getRefinedEventType evC4 = RefinedEventType.UpToDate
    ∧ evC4.type = ResourceEventType.Added
    ∧ evC4.object.metadata.deletionTimestamp = none
    ∧ Option.bind evC4.object.status AppStatus.observedGeneration = none
    ∧ evC4.object.metadata.generation = none :=
  ⟨rfl, rfl, rfl, rfl, rfl⟩

/-- C4 amended: for every event whose raw phase is not Deleted and whose
object has no deletionTimestamp, the refined type is UpToDate if and only
if `status?.observedGeneration` equals `metadata.generation` as optional
values (in particular both absent also refines to UpToDate; presence is
not separately checked); otherwise the refined type equals the raw phase.
The priority order Deleted over deletionTimestamp over the generation
check is kept. -/
theorem getRefinedEventType_characterization (e : ResourceEvent)
    (hDel : e.type ≠ ResourceEventType.Deleted)
    (hTs : e.object.metadata.deletionTimestamp = none) :
    (getRefinedEventType e = RefinedEventType.UpToDate ↔
      Option.bind e.object.status AppStatus.observedGeneration
        = e.object.metadata.generation)
    ∧ (Option.bind e.object.status AppStatus.observedGeneration
          ≠ e.object.metadata.generation →
        getRefinedEventType e = RefinedEventType.ofRaw e.type) := by
  unfold getRefinedEventType
  simp only [hDel, if_false, hTs, Option.isSome_none, Bool.false_eq_true, if_false]
  by_cases hg : Option.bind e.object.status AppStatus.observedGeneration
      = e.object.metadata.generation
  · simp [hg]
  · constructor
    · rw [if_neg hg]
      constructor
      · intro hriff
        cases e with
        | mk ty obj =>
          cases ty <;> simp_all [RefinedEventType.ofRaw]
      · intro hh
        exact absurd hh hg
    · intro _
      rw [if_neg hg]

/-- Concrete Modified event for the C4 witness: observedGeneration 3
disagrees with generation 4. -/
def evC4w : ResourceEvent :=
  { type := ResourceEventType.Modified,
    object :=
      { metadata := { name := "app2", generation := some 4, deletionTimestamp := none },
        spec := JsValue.obj [],
        status := some { healthStatus := ArgoCdHealthStatus.Healthy,
                         syncStatus := ArgoCdSyncStatus.Synced,
                         observedGeneration := some 3 } } }

/-- Witness for C4 amended at a concrete Modified event whose
observedGeneration disagrees with the generation. -/
theorem getRefinedEventType_characterization_witness :
    (evC4w.type ≠ ResourceEventType.Deleted
      ∧ evC4w.object.metadata.deletionTimestamp = none)
    ∧ ((getRefinedEventType evC4w = RefinedEventType.UpToDate ↔
          Option.bind evC4w.object.status AppStatus.observedGeneration
            = evC4w.object.metadata.generation)
        ∧ (Option.bind evC4w.object.status AppStatus.observedGeneration
              ≠ evC4w.object.metadata.generation →
            getRefinedEventType evC4w = RefinedEventType.ofRaw evC4w.type)) :=
  ⟨⟨by decide, rfl⟩, getRefinedEventType_characterization evC4w (by decide) rfl⟩

/-- JS truthiness for the values the manager tests (`!!x`, `x || y`).
Primitives are truthy when their printed form is non-empty; the code only
ever tests object-or-undefined values (`spec.source.directory`,
`changesObject.source`, `helm`, `valuesObject?.image`) and strings, so the
numeric edge cases (0, NaN) are never exercised. -/
def jsTruthy : JsValue → Bool
  | JsValue.undef => false
  | JsValue.null => false
  | JsValue.prim s => !(s == "")
  | JsValue.arr _ => true
  | JsValue.obj _ => true

/-- Property access `v.k`: lookup on objects, `undefined` otherwise. -/
def JsValue.getField : JsValue → String → JsValue
  | JsValue.obj f, k => lookupD f k
  | _, _ => JsValue.undef

/-- Field list of an object value (empty for non-objects). -/
def JsValue.objFields : JsValue → List (String × JsValue)
  | JsValue.obj f => f
  | _ => []

/-- Drop the named keys from an object field list (the rest pattern of a
JS destructuring such as `const { syncPolicy: _, source, ...restSpec }`). -/
def removeKeys (f : List (String × JsValue)) (ks : List String) :
    List (String × JsValue) :=
  f.filter (fun e => !(ks.contains e.1))

/-- Embedding of `reorganizeSpec` inside `generateChangesString`
(resource-manager, part_020 lines 445 to 459): drop `syncPolicy`, pull
`source` to the front and inside it order `repoURL`, `targetRevision`,
`chart`, `helm` first.  The JS object literal writes those four keys even
when the destructured value is `undefined`, which is why the diff layer
needs the missing-as-undefined equality rule.  The zod schema guarantees
`spec` and `spec.source` are objects. -/
def reorganizeSpec (spec : JsValue) : JsValue :=
  let sf := spec.objFields
  let srcf := (lookupD sf "source").objFields
  let restSpec := removeKeys sf ["syncPolicy", "source"]
  let restSource := removeKeys srcf ["repoURL", "targetRevision", "chart", "helm"]
  JsValue.obj
    (("source", JsValue.obj
        ([("repoURL", lookupD srcf "repoURL"),
          ("targetRevision", lookupD srcf "targetRevision"),
          ("chart", lookupD srcf "chart"),
          ("helm", lookupD srcf "helm")] ++ restSource))
      :: restSpec)

/-- Embedding of `isOnlyImageTagOrTagRevisionChange` (part_020 lines 474
to 498): the ChangeSet touches exactly the key `source`, and inside it
either a truthy `targetRevision`, or a truthy `helm` whose
`valuesObject?.image` object has a `tag` key. -/
def isOnlyImageTagOrTagRevisionChange (cacheSpec updateSpec : JsValue) : Bool :=
  let changesObject := filterChanges updateSpec.objFields cacheSpec.objFields
  match changesObject with
  | [(changedPath, changedValue)] =>
    if changedPath = "source" then
      let sourceChanges := if jsTruthy changedValue then changedValue else JsValue.obj []
      if jsTruthy (sourceChanges.getField "targetRevision") then true
      else if jsTruthy (sourceChanges.getField "helm") then
        let imageValue :=
          ((sourceChanges.getField "helm").getField "valuesObject").getField "image"
        let imageObject := if jsTruthy imageValue then imageValue else JsValue.obj []
        hasKey imageObject.objFields "tag"
      else false
    else false
  | _ => false

/-- Whitespace test for the JS `String.prototype.trim` model. -/
def isWsChar (c : Char) : Bool :=
  c == ' ' || c == '\n' || c == '\t' || c == '\r'

/-- Drop leading whitespace characters. -/
def trimLeadingWs : List Char → List Char
  | [] => []
  | c :: cs => if isWsChar c then trimLeadingWs cs else c :: cs

/-- Model of JS `s.trim()`: strip whitespace from both ends. -/
def jsTrim (s : String) : String :=
  String.mk (trimLeadingWs (trimLeadingWs s.data.reverse).reverse)

/-- The rendered-diff collaborator `generateReadableDiff`
(src/utils/generate-readable-diff.ts) wraps the external `yaml` and
`diff` npm packages; the manager model is parameterized over it:
arguments are original, updated, contextLines, separator. -/
abbrev DiffRenderer := JsValue → JsValue → Nat → String → String

/-- Embedding of the manager `generateChangesString` (part_020 lines 444
to 472): reorganize both specs, detect the terse one-line case, call the
renderer with context 0 and empty separator in that case and context 2
with separator "........." otherwise, and trim the result. -/
def generateChangesString (grd : DiffRenderer) (cacheSpec updateSpec : JsValue) :
    String :=
  let cacheObject := reorganizeSpec cacheSpec
  let updateObject := reorganizeSpec updateSpec
  let isOnlyVersionUpdate := isOnlyImageTagOrTagRevisionChange cacheObject updateObject
  jsTrim (grd cacheObject updateObject
      (if isOnlyVersionUpdate then 0 else 2)
      (if isOnlyVersionUpdate then "" else "........."))

/-- Embedding of the CacheEntry interface
(src/interfaces/cache-entry.interface.ts): last snapshot fields plus the
notification bookkeeping. -/
structure CacheEntry where
  status : ArgoCdHealthStatus
  sync : ArgoCdSyncStatus
  spec : JsValue
  lastMessageTs : Option String
  persistentChanges : String
  deploymentInProgress : Bool
deriving Repr

/-- Embedding of ResourceUpdate: the snapshot part of a CacheEntry. -/
structure ResourceUpdate where
  status : ArgoCdHealthStatus
  sync : ArgoCdSyncStatus
  spec : JsValue
deriving Repr

/-- Outcome of one outbound Slack call as seen by the manager:
`none` models a thrown error that `createSlackMessage` and
`updateSlackMessage` catch and log, returning `undefined`; `some r`
models a normal return `{ts: r}` where the ts itself may be absent. -/
abbrev SlackResult := Option (Option String)

/-- Per-event environment: the results the two Slack wrappers would
return, and the clock reading used by `mergeChanges`. -/
structure SlackEnv where
  createResult : SlackResult
  updateResult : SlackResult
  mergeTimeStamp : String
deriving Repr

/-- Record of one outbound notification request made by the manager. -/
inductive NotifyCall where
  | create (name : String) (targetNamespace : Option String)
      (update : ResourceUpdate) (changesString : String)
  | update (name : String) (targetNamespace : Option String)
      (update : ResourceUpdate) (changesString : String)
deriving Repr

/-- JS `res?.ts || mock`: the mock string is used when the call failed,
returned no ts, or returned an empty (falsy) ts. -/
def tsOrMock (res : SlackResult) (mock : String) : String :=
  match res with
  | some (some t) => if t = "" then mock else t
  | _ => mock

/-- Embedding of `mergeChanges` (part_020 lines 229 to 241). -/
def mergeChanges (timeStamp existingChanges newChanges : String) : String :=
  if existingChanges = "" ∨ newChanges = "" then
    (if existingChanges = "" then newChanges else existingChanges)
  else
    existingChanges ++ "\n\n--- New changes (" ++ timeStamp ++ ") ---\n" ++ newChanges

/-- Embedding of `isDeploymentInProgress` (part_020 lines 225 to 227). -/
def isDeploymentInProgress (update : ResourceUpdate) : Bool :=
  !(decide (update.sync = ArgoCdSyncStatus.Synced))
    || !(decide (update.status = ArgoCdHealthStatus.Healthy))

/-- Embedding of `hasStatusChanged` (part_020 lines 160 to 162). -/
def hasStatusChanged (cachedResource : CacheEntry) (update : ResourceUpdate) : Bool :=
  !(decide (cachedResource.sync = update.sync))
    || !(decide (cachedResource.status = update.status))

/-- Embedding of `startNewDeployment` (part_020 lines 180 to 191): send a
create, then commit the cache entry with the update snapshot, the diff as
the accumulated text, the returned ts (or the mock fallback) and
deploymentInProgress hard-coded to true. -/
def startNewDeployment (env : SlackEnv) (name : String)
    (targetNamespace : Option String) (update : ResourceUpdate)
    (changesString : String) : CacheEntry × List NotifyCall :=
  ({ status := update.status, sync := update.sync, spec := update.spec,
     lastMessageTs := some (tsOrMock env.createResult "mock-timestamp"),
     persistentChanges := changesString,
     deploymentInProgress := true },
   [NotifyCall.create name targetNamespace update changesString])

/-- Embedding of `updateExistingDeployment` (part_020 lines 193 to 208):
merge the accumulated text with the new diff, send an update, recompute
deploymentInProgress from the new snapshot and commit. -/
def updateExistingDeployment (env : SlackEnv) (name : String)
    (targetNamespace : Option String) (cachedResource : CacheEntry)
    (update : ResourceUpdate) (changesString : String) :
    CacheEntry × List NotifyCall :=
  let updatedChanges :=
    mergeChanges env.mergeTimeStamp cachedResource.persistentChanges changesString
  ({ status := update.status, sync := update.sync, spec := update.spec,
     lastMessageTs := some (tsOrMock env.updateResult "mock-timestamp-updated"),
     persistentChanges := updatedChanges,
     deploymentInProgress := isDeploymentInProgress update },
   [NotifyCall.update name targetNamespace update updatedChanges])

/-- Embedding of `handleResourceUpdate` (part_020 lines 135 to 158).
Returns the committed cache entry (`none` when the branch writes
nothing) and the outbound calls made. -/
def handleResourceUpdate (grd : DiffRenderer) (env : SlackEnv) (name : String)
    (targetNamespace : Option String) (cachedResource : CacheEntry)
    (update : ResourceUpdate) : Option CacheEntry × List NotifyCall :=
  let changesString := generateChangesString grd cachedResource.spec update.spec
  let hasChanges := decide (changesString.length > 0)
  let statusChanged := hasStatusChanged cachedResource update
  if statusChanged && hasChanges then
    if !cachedResource.deploymentInProgress then
      let r := startNewDeployment env name targetNamespace update changesString
      (some r.1, r.2)
    else
      let r := updateExistingDeployment env name targetNamespace cachedResource
        update changesString
      (some r.1, r.2)
  else if statusChanged && cachedResource.deploymentInProgress then
    let r := updateExistingDeployment env name targetNamespace cachedResource
      update changesString
    (some r.1, r.2)
  else
    (none, [])

/-- Embedding of `initializeCache` (part_020 lines 124 to 133). -/
def initializeCache (update : ResourceUpdate) : CacheEntry :=
  { status := update.status, sync := update.sync, spec := update.spec,
    lastMessageTs := some "mock-timestamp",
    persistentChanges := "",
    deploymentInProgress := false }

/-- Snapshot built by `syncResource` (part_020 lines 110 to 114):
`status?.health.status || N_A` and `status?.sync.status || N_A` (the enum
strings are never empty, so `||` only matters for the absent case). -/
def updateOfResource (resource : AppResource) : ResourceUpdate :=
  { status := match resource.status with
      | some s => s.healthStatus
      | none => ArgoCdHealthStatus.N_A,
    sync := match resource.status with
      | some s => s.syncStatus
      | none => ArgoCdSyncStatus.N_A,
    spec := resource.spec }

/-- Destination namespace `spec.destination.namespace` as passed to the
notification layer (a string, or absent). -/
def destNamespace (spec : JsValue) : Option String :=
  match (spec.getField "destination").getField "namespace" with
  | JsValue.prim s => some s
  | _ => none

/-- Embedding of `isDirectorySource` (part_020 lines 440 to 442). -/
def isDirectorySource (resource : AppResource) : Bool :=
  jsTruthy ((resource.spec.getField "source").getField "directory")

/-- The per-manager resource cache map, insertion ordered like a JS Map. -/
abbrev ResourceCacheMap := List (String × CacheEntry)

/-- JS `Map.get`. -/
def cacheGet (cache : ResourceCacheMap) (name : String) : Option CacheEntry :=
  (cache.find? (fun e => e.1 == name)).map Prod.snd

/-- JS `Map.set`: replace in place when present, append otherwise. -/
def cacheSet (cache : ResourceCacheMap) (name : String) (entry : CacheEntry) :
    ResourceCacheMap :=
  if (cache.find? (fun e => e.1 == name)).isSome then
    cache.map (fun e => if e.1 == name then (name, entry) else e)
  else
    cache ++ [(name, entry)]

/-- Embedding of `syncResource` (part_020 lines 101 to 122): skip
directory sources, initialize the cache on first sight, otherwise hand
off to `handleResourceUpdate`. -/
def syncResource (grd : DiffRenderer) (env : SlackEnv) (cache : ResourceCacheMap)
    (resource : AppResource) : ResourceCacheMap × List NotifyCall :=
  let name := resource.metadata.name
  if isDirectorySource resource then (cache, [])
  else
    let update := updateOfResource resource
    match cacheGet cache name with
    | none => (cacheSet cache name (initializeCache update), [])
    | some cachedResource =>
      let r := handleResourceUpdate grd env name (destNamespace resource.spec)
        cachedResource update
      (match r.1 with
        | some entry => cacheSet cache name entry
        | none => cache,
       r.2)

/-- Embedding of `handleEvent` (base.resource-manager.ts lines 112 to
151) composed with the handlers the ArgoCD manager provides: the three
sync-like refined types run `syncResource`; Deleting runs the default
`deleteResource`, which only logs; Deleted has no implemented handler;
unknown raw phases are logged and dropped. -/
def handleEvent (grd : DiffRenderer) (env : SlackEnv) (cache : ResourceCacheMap)
    (event : ResourceEvent) : ResourceCacheMap × List NotifyCall :=
  match getRefinedEventType event with
  | RefinedEventType.Added => syncResource grd env cache event.object
  | RefinedEventType.Modified => syncResource grd env cache event.object
  | RefinedEventType.UpToDate => syncResource grd env cache event.object
  | RefinedEventType.Deleting => (cache, [])
  | RefinedEventType.Deleted => (cache, [])
  | RefinedEventType.Error => (cache, [])

/-- Renderer instance returning an empty diff: consistent with the real
renderer on the pairs of equal canonicalized specs it is applied to in
the concrete runs below (equal YAML text diffs to no hunks, and
`formatDiff` of a hunk-free patch is the empty string). -/
def grdEmpty : DiffRenderer := fun _ _ _ _ => ""

/-- Renderer instance returning a one-line diff: consistent with the real
renderer on the pairs of differing canonicalized specs it is applied to
in the concrete runs below. -/
def grdLine : DiffRenderer := fun _ _ _ _ => "- targetRevision: v1\n+ targetRevision: v2"

/-- Helm-style application spec at revision v1. -/
def specV1 : JsValue :=
  JsValue.obj
    [("source", JsValue.obj
        [("repoURL", JsValue.prim "https://repo"),
         ("targetRevision", JsValue.prim "v1")]),
     ("destination", JsValue.obj [("namespace", JsValue.prim "ns")])]

/-- Helm-style application spec at revision v2. -/
def specV2 : JsValue :=
  JsValue.obj
    [("source", JsValue.obj
        [("repoURL", JsValue.prim "https://repo"),
         ("targetRevision", JsValue.prim "v2")]),
     ("destination", JsValue.obj [("namespace", JsValue.prim "ns")])]

/-- Resource app1 at spec v1, OutOfSync and Progressing. -/
def resOutOfSyncV1 : AppResource :=
  { metadata := { name := "app1", generation := none, deletionTimestamp := none },
    spec := specV1,
    status := some { healthStatus := ArgoCdHealthStatus.Progressing,
                     syncStatus := ArgoCdSyncStatus.OutOfSync,
                     observedGeneration := none } }

/-- Resource app1 at spec v1, Synced and Healthy. -/
def resSyncedV1 : AppResource :=
  { metadata := { name := "app1", generation := none, deletionTimestamp := none },
    spec := specV1,
    status := some { healthStatus := ArgoCdHealthStatus.Healthy,
                     syncStatus := ArgoCdSyncStatus.Synced,
                     observedGeneration := none } }

/-- Environment in which both Slack calls succeed with real timestamps. -/
def envOk : SlackEnv :=
  { createResult := some (some "1700000000.000100"),
    updateResult := some (some "1700000000.000200"),
    mergeTimeStamp := "12:00" }

/-- Environment in which both Slack calls throw (caught and logged). -/
def envFail : SlackEnv :=
  { createResult := none, updateResult := none, mergeTimeStamp := "12:00" }

/-- Cache after the first event for app1 (OutOfSync, Progressing). -/
def cacheC2a : ResourceCacheMap :=
  (handleEvent grdEmpty envOk []
    { type := ResourceEventType.Added, object := resOutOfSyncV1 }).1

/-- Cache after a second, identical event for app1. -/
def cacheC2b : ResourceCacheMap :=
  (handleEvent grdEmpty envOk cacheC2a
    { type := ResourceEventType.Modified, object := resOutOfSyncV1 }).1

/-- C2 counterexample: starting from an empty cache, after two processed
events for app1 (both OutOfSync and Progressing with the same spec, the
second being an event for an already-cached resource that takes the no-op
branch) the entry has sync OutOfSync yet deploymentInProgress false: the
claimed biconditional fails, because initialization pins the flag to
false and a no-op event does not repair it. -/
theorem cache_invariant_counterexample :
    (cacheGet cacheC2b "app1").map
        (fun e => (e.sync, e.status, e.deploymentInProgress))
      = some (ArgoCdSyncStatus.OutOfSync, ArgoCdHealthStatus.Progressing, false) := rfl

/-- C2 amended: when the cached entry has deploymentInProgress true and
the sync or health status changed, the committed entry does satisfy the
invariant: deploymentInProgress iff not simultaneously Synced and
Healthy.  Events that start a new deployment instead set the flag to true
unconditionally, initialization sets it to false unconditionally, and
no-op events leave the previous entry in place, so the unrestricted
biconditional of the claim fails. -/
theorem updateExistingDeployment_invariant (grd : DiffRenderer) (env : SlackEnv)
    (name : String) (targetNamespace : Option String)
    (cachedResource : CacheEntry) (update : ResourceUpdate) (e : CacheEntry)
    (hInProg : cachedResource.deploymentInProgress = true)
    (hStatus : hasStatusChanged cachedResource update = true)
    (hCommit : (handleResourceUpdate grd env name targetNamespace
        cachedResource update).1 = some e) :
    e.deploymentInProgress = true ↔
      ¬(e.sync = ArgoCdSyncStatus.Synced ∧ e.status = ArgoCdHealthStatus.Healthy) := by
  have he : e = (updateExistingDeployment env name targetNamespace cachedResource
      update (generateChangesString grd cachedResource.spec update.spec)).1 := by
    unfold handleResourceUpdate at hCommit
    by_cases hc : decide
        ((generateChangesString grd cachedResource.spec update.spec).length > 0) = true
    · simp [hStatus, hInProg, hc] at hCommit
      exact hCommit.symm
    · simp only [Bool.not_eq_true] at hc
      simp [hStatus, hInProg, hc] at hCommit
      exact hCommit.symm
  subst he
  simp only [updateExistingDeployment, isDeploymentInProgress]
  constructor
  · intro hb hand
    rw [hand.1, hand.2] at hb
    simp at hb
  · intro hnot
    by_cases hs : update.sync = ArgoCdSyncStatus.Synced
    · by_cases hh : update.status = ArgoCdHealthStatus.Healthy
      · exact absurd ⟨hs, hh⟩ hnot
      · simp [hh]
    · simp [hs]

/-- Cached entry for the C2 witness: a deployment in progress. -/
def cachedInProgW : CacheEntry :=
  { status := ArgoCdHealthStatus.Progressing, sync := ArgoCdSyncStatus.OutOfSync,
    spec := specV1, lastMessageTs := some "1700000000.000050",
    persistentChanges := "earlier diff", deploymentInProgress := true }

/-- Update for the C2 witness: deployment settles at spec v2. -/
def updSettledV2 : ResourceUpdate :=
  { status := ArgoCdHealthStatus.Healthy, sync := ArgoCdSyncStatus.Synced,
    spec := specV2 }

/-- Entry committed in the C2 witness run. -/
def eC2w : CacheEntry :=
  (updateExistingDeployment envOk "app1" (some "ns") cachedInProgW updSettledV2
    (generateChangesString grdLine specV1 specV2)).1

/-- Witness for C2 amended at a concrete in-progress entry and settling
update. -/
theorem updateExistingDeployment_invariant_witness :
    (cachedInProgW.deploymentInProgress = true
      ∧ hasStatusChanged cachedInProgW updSettledV2 = true
      ∧ (handleResourceUpdate grdLine envOk "app1" (some "ns") cachedInProgW
          updSettledV2).1 = some eC2w)
    ∧ (eC2w.deploymentInProgress = true ↔
        ¬(eC2w.sync = ArgoCdSyncStatus.Synced
            ∧ eC2w.status = ArgoCdHealthStatus.Healthy)) :=
  ⟨⟨rfl, rfl, rfl⟩,
    updateExistingDeployment_invariant grdLine envOk "app1" (some "ns")
      cachedInProgW updSettledV2 eC2w rfl rfl rfl⟩

/-- Cache after a first event for app1 (Synced, Healthy, spec v1): the
entry is Idle. -/
def cacheC3 : ResourceCacheMap :=
  (handleEvent grdEmpty envOk []
    { type := ResourceEventType.Added, object := resSyncedV1 }).1

/-- C3 counterexample: the cached app1 entry is Idle, the incoming update
changes both statuses (so the claimed trigger statusChanged-or-nonempty-
ChangeSet holds) but keeps the same spec, so the rendered diff is empty;
the manager makes no Notifier.create call at all and commits nothing,
where the claim demands exactly one create: the code requires
statusChanged AND a non-empty rendered diff to start a deployment. -/
theorem idle_statusChanged_no_create_counterexample :
    (cacheGet cacheC3 "app1").map CacheEntry.deploymentInProgress = some false
    ∧ (cacheGet cacheC3 "app1").map CacheEntry.sync = some ArgoCdSyncStatus.Synced
    ∧ (handleEvent grdEmpty envOk cacheC3
        { type := ResourceEventType.Modified, object := resOutOfSyncV1 }).2 = []
    ∧ (handleEvent grdEmpty envOk cacheC3
        { type := ResourceEventType.Modified, object := resOutOfSyncV1 }).1 = cacheC3 :=
  ⟨rfl, rfl, rfl, rfl⟩

theorem string_length_pos_of_ne {s : String} (h : s ≠ "") : 0 < s.length := by
  rcases s with ⟨l⟩
  cases l with
  | nil => exact absurd rfl h
  | cons c cs => simp [String.length]

/-- C3 amended: for a cached resource in the Idle state, an incoming
update for which statusChanged holds and the rendered diff is non-empty
causes exactly one Notifier.create call; the returned ts (or the mock
fallback when the call failed or returned none) is stored, the
accumulated text becomes the rendered diff, and the entry is marked
InProgress.  A status-only update with an empty rendered diff, or a spec
change without a status change, triggers nothing. -/
theorem startNewDeployment_on_idle (grd : DiffRenderer) (env : SlackEnv)
    (name : String) (targetNamespace : Option String)
    (cachedResource : CacheEntry) (update : ResourceUpdate)
    (hIdle : cachedResource.deploymentInProgress = false)
    (hStatus : hasStatusChanged cachedResource update = true)
    (hChanges : generateChangesString grd cachedResource.spec update.spec ≠ "") :
    handleResourceUpdate grd env name targetNamespace cachedResource update =
      (some { status := update.status, sync := update.sync, spec := update.spec,
              lastMessageTs := some (tsOrMock env.createResult "mock-timestamp"),
              persistentChanges :=
                generateChangesString grd cachedResource.spec update.spec,
              deploymentInProgress := true },
       [NotifyCall.create name targetNamespace update
          (generateChangesString grd cachedResource.spec update.spec)]) := by
  have hlen : decide
      ((generateChangesString grd cachedResource.spec update.spec).length > 0) = true := by
    simpa using string_length_pos_of_ne hChanges
  unfold handleResourceUpdate
  simp [hStatus, hIdle, hlen, startNewDeployment]

/-- Idle cached entry for the C3 witness. -/
def cachedIdleW : CacheEntry :=
  { status := ArgoCdHealthStatus.Healthy, sync := ArgoCdSyncStatus.Synced,
    spec := specV1, lastMessageTs := some "mock-timestamp",
    persistentChanges := "", deploymentInProgress := false }

/-- Update for the C3 and C8 witnesses: new spec, deployment starting. -/
def updOutV2 : ResourceUpdate :=
  { status := ArgoCdHealthStatus.Progressing, sync := ArgoCdSyncStatus.OutOfSync,
    spec := specV2 }

/-- Witness for C3 amended at a concrete Idle entry and differing update. -/
theorem startNewDeployment_on_idle_witness :
    (cachedIdleW.deploymentInProgress = false
      ∧ hasStatusChanged cachedIdleW updOutV2 = true
      ∧ generateChangesString grdLine cachedIdleW.spec updOutV2.spec ≠ "")
    ∧ handleResourceUpdate grdLine envOk "app1" (some "ns") cachedIdleW updOutV2 =
        (some { status := updOutV2.status, sync := updOutV2.sync,
                spec := updOutV2.spec,
                lastMessageTs := some (tsOrMock envOk.createResult "mock-timestamp"),
                persistentChanges :=
                  generateChangesString grdLine cachedIdleW.spec updOutV2.spec,
                deploymentInProgress := true },
         [NotifyCall.create "app1" (some "ns") updOutV2
            (generateChangesString grdLine cachedIdleW.spec updOutV2.spec)]) :=
  ⟨⟨rfl, rfl, by decide⟩,
    startNewDeployment_on_idle grdLine envOk "app1" (some "ns") cachedIdleW
      updOutV2 rfl rfl (by decide)⟩

/-- C5 counterexample: the first-ever event for an identity with raw
phase Deleted creates no cache entry at all (there is no implemented
Deleted handler), where the claim demands a cache entry regardless of the
phase.  Zero notifications are still produced. -/
theorem first_event_deleted_no_cache_counterexample :
    cacheGet [] resSyncedV1.metadata.name = none
    ∧ handleEvent grdEmpty envOk []
        { type := ResourceEventType.Deleted, object := resSyncedV1 } = ([], []) :=
  ⟨rfl, rfl⟩

theorem cacheGet_cacheSet_self_of_none {cache : ResourceCacheMap} {name : String}
    {entry : CacheEntry} (h : cacheGet cache name = none) :
    cacheGet (cacheSet cache name entry) name = some entry := by
  have hf : cache.find? (fun e => e.1 == name) = none := by
    cases hx : cache.find? (fun e => e.1 == name) with
    | none => rfl
    | some e => unfold cacheGet at h; rw [hx] at h; simp at h
  unfold cacheSet
  rw [hf]
  simp only [Option.isSome_none, Bool.false_eq_true, if_false]
  unfold cacheGet
  rw [List.find?_append, hf]
  simp [List.find?]

/-- C5 amended: for every resource identity not present in the cache,
processing its first event produces zero notification calls regardless of
the phase; a cache entry (with deploymentInProgress false and empty
accumulated change text) is created exactly when the refined event type
is Added, Modified or UpToDate and the resource is not a directory
source; Deleting, Deleted and unknown phases, and directory sources,
leave the cache untouched. -/
theorem first_event_initializes (grd : DiffRenderer) (env : SlackEnv)
    (cache : ResourceCacheMap) (event : ResourceEvent)
    (hnew : cacheGet cache event.object.metadata.name = none) :
    (handleEvent grd env cache event).2 = []
    ∧ ((getRefinedEventType event = RefinedEventType.Added
          ∨ getRefinedEventType event = RefinedEventType.Modified
          ∨ getRefinedEventType event = RefinedEventType.UpToDate) →
        isDirectorySource event.object = false →
        cacheGet (handleEvent grd env cache event).1 event.object.metadata.name
          = some (initializeCache (updateOfResource event.object)))
    ∧ (initializeCache (updateOfResource event.object)).deploymentInProgress = false
    ∧ (initializeCache (updateOfResource event.object)).persistentChanges = ""
    ∧ ((getRefinedEventType event = RefinedEventType.Deleting
          ∨ getRefinedEventType event = RefinedEventType.Deleted
          ∨ getRefinedEventType event = RefinedEventType.Error
          ∨ isDirectorySource event.object = true) →
        (handleEvent grd env cache event).1 = cache) := by
  have hsync : ∀ hre : RefinedEventType, getRefinedEventType event = hre →
      (hre = RefinedEventType.Added ∨ hre = RefinedEventType.Modified
        ∨ hre = RefinedEventType.UpToDate) →
      syncResource grd env cache event.object =
        (if isDirectorySource event.object then cache
          else cacheSet cache event.object.metadata.name
            (initializeCache (updateOfResource event.object)), []) := by
    intro hre _ _
    unfold syncResource
    by_cases hdir : isDirectorySource event.object = true
    · simp [hdir]
    · simp only [Bool.not_eq_true] at hdir
      simp only [hdir, Bool.false_eq_true, if_false]
      rw [hnew]
  cases hr : getRefinedEventType event with
  | Added =>
    have hs := hsync RefinedEventType.Added hr (Or.inl rfl)
    by_cases hdir : isDirectorySource event.object = true
    · simp [handleEvent, hr, hs, hdir, initializeCache]
    · simp only [Bool.not_eq_true] at hdir
      refine ⟨by simp [handleEvent, hr, hs], fun _ _ => ?_, rfl, rfl, fun hcase => ?_⟩
      · simp only [handleEvent, hr, hs, hdir, Bool.false_eq_true, if_false]
        exact cacheGet_cacheSet_self_of_none hnew
      · rcases hcase with h | h | h | h <;> simp_all
  | Modified =>
    have hs := hsync RefinedEventType.Modified hr (Or.inr (Or.inl rfl))
    by_cases hdir : isDirectorySource event.object = true
    · simp [handleEvent, hr, hs, hdir, initializeCache]
    · simp only [Bool.not_eq_true] at hdir
      refine ⟨by simp [handleEvent, hr, hs], fun _ _ => ?_, rfl, rfl, fun hcase => ?_⟩
      · simp only [handleEvent, hr, hs, hdir, Bool.false_eq_true, if_false]
        exact cacheGet_cacheSet_self_of_none hnew
      · rcases hcase with h | h | h | h <;> simp_all
  | UpToDate =>
    have hs := hsync RefinedEventType.UpToDate hr (Or.inr (Or.inr rfl))
    by_cases hdir : isDirectorySource event.object = true
    · simp [handleEvent, hr, hs, hdir, initializeCache]
    · simp only [Bool.not_eq_true] at hdir
      refine ⟨by simp [handleEvent, hr, hs], fun _ _ => ?_, rfl, rfl, fun hcase => ?_⟩
      · simp only [handleEvent, hr, hs, hdir, Bool.false_eq_true, if_false]
        exact cacheGet_cacheSet_self_of_none hnew
      · rcases hcase with h | h | h | h <;> simp_all
  | Deleting => simp [handleEvent, hr, initializeCache]
  | Deleted => simp [handleEvent, hr, initializeCache]
  | Error => simp [handleEvent, hr, initializeCache]

/-- Witness for C5 amended: first event for app1 on an empty cache. -/
theorem first_event_initializes_witness :
    cacheGet [] resSyncedV1.metadata.name = none
    ∧ ((handleEvent grdEmpty envOk []
          { type := ResourceEventType.Added, object := resSyncedV1 }).2 = []
        ∧ ((getRefinedEventType
              { type := ResourceEventType.Added, object := resSyncedV1 }
                = RefinedEventType.Added
            ∨ getRefinedEventType
                { type := ResourceEventType.Added, object := resSyncedV1 }
                  = RefinedEventType.Modified
            ∨ getRefinedEventType
                { type := ResourceEventType.Added, object := resSyncedV1 }
                  = RefinedEventType.UpToDate) →
            isDirectorySource resSyncedV1 = false →
            cacheGet (handleEvent grdEmpty envOk []
                { type := ResourceEventType.Added, object := resSyncedV1 }).1
                resSyncedV1.metadata.name
              = some (initializeCache (updateOfResource resSyncedV1)))
        ∧ (initializeCache (updateOfResource resSyncedV1)).deploymentInProgress = false
        ∧ (initializeCache (updateOfResource resSyncedV1)).persistentChanges = ""
        ∧ ((getRefinedEventType
              { type := ResourceEventType.Added, object := resSyncedV1 }
                = RefinedEventType.Deleting
            ∨ getRefinedEventType
                { type := ResourceEventType.Added, object := resSyncedV1 }
                  = RefinedEventType.Deleted
            ∨ getRefinedEventType
                { type := ResourceEventType.Added, object := resSyncedV1 }
                  = RefinedEventType.Error
            ∨ isDirectorySource resSyncedV1 = true) →
            (handleEvent grdEmpty envOk []
              { type := ResourceEventType.Added, object := resSyncedV1 }).1 = [])) :=
  ⟨rfl, first_event_initializes grdEmpty envOk []
    { type := ResourceEventType.Added, object := resSyncedV1 } rfl⟩

/-- C8 counterexample: the same deployment-starting event processed once
with a successful notifier call and once with a thrown one commits
different cache states: the stored message handle is the real ts on
success and the mock fallback on failure, so the cache state after the
event does depend on whether the notifier succeeded. -/
theorem notifier_result_affects_handle_counterexample :
    ((handleResourceUpdate grdLine envOk "app1" (some "ns") cachedIdleW
        updOutV2).1.map CacheEntry.lastMessageTs
      = some (some "1700000000.000100"))
    ∧ ((handleResourceUpdate grdLine envFail "app1" (some "ns") cachedIdleW
        updOutV2).1.map CacheEntry.lastMessageTs
      = some (some "mock-timestamp")) :=
  ⟨rfl, rfl⟩

/-- C8 amended: when the outbound notification call throws, the error is
caught and logged, and the cache transition is committed all the same:
the committed snapshot (status, sync, spec), accumulated change text and
deploymentInProgress flag, and the notification requests made, are
identical for any two notifier outcomes; only the stored message handle
depends on the outcome (mock fallback on failure). -/
theorem notifier_decoupled_commit (grd : DiffRenderer) (env env2 : SlackEnv)
    (name : String) (targetNamespace : Option String)
    (cachedResource : CacheEntry) (update : ResourceUpdate)
    (hts : env.mergeTimeStamp = env2.mergeTimeStamp) :
    ((handleResourceUpdate grd env name targetNamespace cachedResource
        update).1.map CacheEntry.status
      = (handleResourceUpdate grd env2 name targetNamespace cachedResource
        update).1.map CacheEntry.status)
    ∧ ((handleResourceUpdate grd env name targetNamespace cachedResource
        update).1.map CacheEntry.sync
      = (handleResourceUpdate grd env2 name targetNamespace cachedResource
        update).1.map CacheEntry.sync)
    ∧ ((handleResourceUpdate grd env name targetNamespace cachedResource
        update).1.map CacheEntry.spec
      = (handleResourceUpdate grd env2 name targetNamespace cachedResource
        update).1.map CacheEntry.spec)
    ∧ ((handleResourceUpdate grd env name targetNamespace cachedResource
        update).1.map CacheEntry.persistentChanges
      = (handleResourceUpdate grd env2 name targetNamespace cachedResource
        update).1.map CacheEntry.persistentChanges)
    ∧ ((handleResourceUpdate grd env name targetNamespace cachedResource
        update).1.map CacheEntry.deploymentInProgress
      = (handleResourceUpdate grd env2 name targetNamespace cachedResource
        update).1.map CacheEntry.deploymentInProgress)
    ∧ (handleResourceUpdate grd env name targetNamespace cachedResource update).2
      = (handleResourceUpdate grd env2 name targetNamespace cachedResource
        update).2 := by
  unfold handleResourceUpdate startNewDeployment updateExistingDeployment
  rw [hts]
  by_cases h1 : (hasStatusChanged cachedResource update
      && decide ((generateChangesString grd cachedResource.spec update.spec).length > 0))
        = true
  · by_cases h2 : cachedResource.deploymentInProgress = true
    · simp [h1, h2]
    · simp only [Bool.not_eq_true] at h2
      simp [h1, h2]
  · simp only [Bool.not_eq_true] at h1
    by_cases h3 : (hasStatusChanged cachedResource update
        && cachedResource.deploymentInProgress) = true
    · simp [h1, h3]
    · simp only [Bool.not_eq_true] at h3
      simp [h1, h3]

/-- Witness for C8 amended: success environment against failure
environment with the same clock. -/
theorem notifier_decoupled_commit_witness :
    envOk.mergeTimeStamp = envFail.mergeTimeStamp
    ∧ (((handleResourceUpdate grdLine envOk "app1" (some "ns") cachedIdleW
          updOutV2).1.map CacheEntry.status
        = (handleResourceUpdate grdLine envFail "app1" (some "ns") cachedIdleW
          updOutV2).1.map CacheEntry.status)
      ∧ ((handleResourceUpdate grdLine envOk "app1" (some "ns") cachedIdleW
          updOutV2).1.map CacheEntry.sync
        = (handleResourceUpdate grdLine envFail "app1" (some "ns") cachedIdleW
          updOutV2).1.map CacheEntry.sync)
      ∧ ((handleResourceUpdate grdLine envOk "app1" (some "ns") cachedIdleW
          updOutV2).1.map CacheEntry.spec
        = (handleResourceUpdate grdLine envFail "app1" (some "ns") cachedIdleW
          updOutV2).1.map CacheEntry.spec)
      ∧ ((handleResourceUpdate grdLine envOk "app1" (some "ns") cachedIdleW
          updOutV2).1.map CacheEntry.persistentChanges
        = (handleResourceUpdate grdLine envFail "app1" (some "ns") cachedIdleW
          updOutV2).1.map CacheEntry.persistentChanges)
      ∧ ((handleResourceUpdate grdLine envOk "app1" (some "ns") cachedIdleW
          updOutV2).1.map CacheEntry.deploymentInProgress
        = (handleResourceUpdate grdLine envFail "app1" (some "ns") cachedIdleW
          updOutV2).1.map CacheEntry.deploymentInProgress)
      ∧ (handleResourceUpdate grdLine envOk "app1" (some "ns") cachedIdleW
          updOutV2).2
        = (handleResourceUpdate grdLine envFail "app1" (some "ns") cachedIdleW
          updOutV2).2) :=
  ⟨rfl, notifier_decoupled_commit grdLine envOk envFail "app1" (some "ns")
    cachedIdleW updOutV2 rfl⟩

/-- Printed form of a health status (the TS enum string values). -/
def healthStatusText : ArgoCdHealthStatus → String
  | ArgoCdHealthStatus.Healthy => "Healthy"
  | ArgoCdHealthStatus.Progressing => "Progressing"
  | ArgoCdHealthStatus.Degraded => "Degraded"
  | ArgoCdHealthStatus.Suspended => "Suspended"
  | ArgoCdHealthStatus.Missing => "Missing"
  | ArgoCdHealthStatus.N_A => "N/A"

/-- Printed form of a sync status (the TS enum string values). -/
def syncStatusText : ArgoCdSyncStatus → String
  | ArgoCdSyncStatus.Synced => "Synced"
  | ArgoCdSyncStatus.OutOfSync => "OutOfSync"
  | ArgoCdSyncStatus.Unknown => "Unknown"
  | ArgoCdSyncStatus.N_A => "N/A"

/-- JS `x || d` for an optional string: the default is used when the
value is absent or empty (falsy). -/
def jsStringOr (o : Option String) (d : String) : String :=
  match o with
  | some s => if s = "" then d else s
  | none => d

/-- Embedding of `createAltText` (part_020 lines 406 to 423, same body in
slack-notifier.utils.ts lines 178 to 195): compose the plain-text
fallback and slice it to 4000 characters (`.slice(0, 4000)`; JS counts
UTF-16 units, modelled here as characters). -/
def createAltText (isProduction : Bool) (name : String)
    (targetNamespace : Option String) (update : ResourceUpdate)
    (changesString : String) : String :=
  let environmentIndicator := if isProduction then "" else " (DEV)"
  let textComponents :=
    ["Application Updated: " ++ name ++ environmentIndicator ++ " / "
        ++ jsStringOr targetNamespace "Cluster Scoped",
     "Status: health " ++ healthStatusText update.status ++ " / sync "
        ++ syncStatusText update.sync]
    ++ (if changesString = "" then [] else ["*Changes:* " ++ changesString])
  String.mk ((String.intercalate "\n" textComponents).data.take 4000)

/-- C10: the plain-text fallback body of every created or updated
notification is at most 4000 characters long, for all names, namespaces,
statuses and change strings. -/
theorem createAltText_length_le (isProduction : Bool) (name : String)
    (targetNamespace : Option String) (update : ResourceUpdate)
    (changesString : String) :
    (createAltText isProduction name targetNamespace update changesString).length
      ≤ 4000 := by
  unfold createAltText
  show (String.mk _).length ≤ 4000
  have hlen : ∀ l : List Char, (String.mk l).length = l.length := fun l => rfl
  rw [hlen, List.length_take]
  exact min_le_left 4000 _

/-- State of one `CustomResourceOperator` instance
(src/custom-resource-operator/custom-resource-operator.ts), abstracted to
the quantities the claims speak about: how many watch connections are
open (`abortControllers`), how many backoff timers are pending
(`setTimeout(restartWatch, ...)` calls not yet fired), the event queue,
the at-most-one in-flight handler, the handlers started so far, and the
drain flag.  `stopRequested` is a ghost history flag: it is only ever
written by `stop()` and read by no transition, because the source keeps
no stopped or liveness flag at all. -/
structure OpState where
  openSubscriptions : Nat
  pendingTimers : Nat
  queue : List Nat
  processing : Option Nat
  processed : List Nat
  isProcessingQueue : Bool
  stopRequested : Bool
deriving Repr, DecidableEq

/-- Scheduler events for the operator model. -/
inductive OpEvent where
  /-- A transport failure on an open watch: `onWatchError` runs, calls
  `onFail`, and schedules a reconnect timer. -/
  | watchFailure
  /-- A scheduled reconnect timer fires: `restartWatch` runs and opens a
  new subscription, with no stopped-flag check of any kind. -/
  | timerFire
  /-- `enqueueEvent`: push the event and start the drain loop if idle. -/
  | enqueue (id : Nat)
  /-- The drain loop dequeues the next event and invokes its handler. -/
  | startNext
  /-- The in-flight handler returns (or throws, caught and logged); the
  loop exits and clears the drain flag when the queue is empty. -/
  | finishHandler
  /-- `stop()`: abort every open subscription, clear the queue, clear
  the drain flag.  Pending reconnect timers are untouched. -/
  | stopOp
deriving Repr, DecidableEq

/-- One scheduler step of the operator model. -/
def opStep (s : OpState) : OpEvent → OpState
  | OpEvent.watchFailure =>
    if 0 < s.openSubscriptions then
      { s with openSubscriptions := s.openSubscriptions - 1,
               pendingTimers := s.pendingTimers + 1 }
    else s
  | OpEvent.timerFire =>
    if 0 < s.pendingTimers then
      { s with pendingTimers := s.pendingTimers - 1,
               openSubscriptions := s.openSubscriptions + 1 }
    else s
  | OpEvent.enqueue id =>
    { s with queue := s.queue ++ [id], isProcessingQueue := true }
  | OpEvent.startNext =>
    match s.queue, s.processing with
    | e :: rest, none =>
      if s.isProcessingQueue then
        { s with queue := rest, processing := some e,
                 processed := s.processed ++ [e] }
      else s
    | _, _ => s
  | OpEvent.finishHandler =>
    match s.processing with
    | some _ =>
      { s with processing := none,
               isProcessingQueue :=
                 if s.queue.isEmpty then false else s.isProcessingQueue }
    | none => s
  | OpEvent.stopOp =>
    { s with openSubscriptions := 0, queue := [],
             isProcessingQueue := false, stopRequested := true }

/-- Run the operator model over a list of scheduler events. -/
def opRun (s : OpState) (evs : List OpEvent) : OpState :=
  evs.foldl opStep s

/-- Fresh operator state with one open watch and nothing else going on. -/
def opInitWatch : OpState :=
  { openSubscriptions := 1, pendingTimers := 0, queue := [], processing := none,
    processed := [], isProcessingQueue := false, stopRequested := false }

/-- C1 failing trace: a watch failure schedules a reconnect timer, then
`stop()` aborts every subscription (zero open), then the already-pending
timer fires and `restartWatch` opens a new subscription even though stop
was requested: the source checks no stopped or liveness flag at fire
time. -/
theorem reconnect_after_stop_failing_trace :
    (opRun opInitWatch [OpEvent.watchFailure, OpEvent.stopOp]).openSubscriptions = 0
    ∧ (opRun opInitWatch
        [OpEvent.watchFailure, OpEvent.stopOp, OpEvent.timerFire]).stopRequested = true
    ∧ (opRun opInitWatch
        [OpEvent.watchFailure, OpEvent.stopOp, OpEvent.timerFire]).openSubscriptions
        = 1 := by
  decide

theorem opRun_keeps_event_unprocessed (e : Nat) :
    ∀ (evs : List OpEvent) (s : OpState),
      e ∉ s.queue → e ∉ s.processed → s.processing ≠ some e →
      (∀ ev ∈ evs, ev ≠ OpEvent.enqueue e) →
      e ∉ (opRun s evs).queue ∧ e ∉ (opRun s evs).processed
        ∧ (opRun s evs).processing ≠ some e := by
  intro evs
  induction evs with
  | nil => intro s h1 h2 h3 _; exact ⟨h1, h2, h3⟩
  | cons ev rest ih =>
    intro s h1 h2 h3 hall
    have hrest : ∀ x ∈ rest, x ≠ OpEvent.enqueue e :=
      fun x hx => hall x (List.mem_cons_of_mem _ hx)
    have hstep : e ∉ (opStep s ev).queue ∧ e ∉ (opStep s ev).processed
        ∧ (opStep s ev).processing ≠ some e := by
      cases ev with
      | watchFailure =>
        unfold opStep
        by_cases hx : 0 < s.openSubscriptions <;> simp [hx, h1, h2, h3]
      | timerFire =>
        unfold opStep
        by_cases hx : 0 < s.pendingTimers <;> simp [hx, h1, h2, h3]
      | enqueue id =>
        have hne : e ≠ id := by
          intro hEq
          exact hall (OpEvent.enqueue id) (List.mem_cons_self _ _) (by rw [hEq])
        unfold opStep
        refine ⟨?_, h2, h3⟩
        simp [h1, hne]
      | startNext =>
        unfold opStep
        cases hq : s.queue with
        | nil => simp [h1, h2, h3]
        | cons q qrest =>
          cases hp : s.processing with
          | some x => simp [h1, h2, h3, hq ▸ h1, hp ▸ h3]
          | none =>
            by_cases hb : s.isProcessingQueue = true
            · have hqe : e ∉ q :: qrest := hq ▸ h1
              have hq1 : e ≠ q := fun hEq => hqe (hEq ▸ List.mem_cons_self _ _)
              have hq2 : e ∉ qrest := fun hx => hqe (List.mem_cons_of_mem _ hx)
              simp only [hq, hp, hb, if_true]
              refine ⟨hq2, ?_, ?_⟩
              · simp [h2, hq1]
              · simp [Ne.symm hq1]
            · simp only [Bool.not_eq_true] at hb
              simp only [hq, hp, hb, Bool.false_eq_true, if_false]
              exact ⟨hq ▸ h1, h2, by simp⟩
      | finishHandler =>
        unfold opStep
        cases hp : s.processing with
        | some x =>
          simp only [hp]
          exact ⟨h1, h2, by simp⟩
        | none =>
          simp only [hp]
          exact ⟨h1, h2, by simp⟩
      | stopOp =>
        unfold opStep
        simp [h2, h3]
    have hres := ih (opStep s ev) hstep.1 hstep.2.1 hstep.2.2 hrest
    exact hres

/-- C9: calling `stop()` empties the queue and clears the drain flag, and
an event that was enqueued but whose handler had not yet started is never
handled afterwards (as long as it is not enqueued again); the at-most-one
in-flight handler is untouched and may run to completion. -/
theorem stop_discards_pending_events (s : OpState) (e : Nat) (evs : List OpEvent)
    (hq : e ∈ s.queue) (hp : e ∉ s.processed) (hc : s.processing ≠ some e)
    (henq : ∀ ev ∈ evs, ev ≠ OpEvent.enqueue e) :
    (opStep s OpEvent.stopOp).queue = []
    ∧ (opStep s OpEvent.stopOp).isProcessingQueue = false
    ∧ (opStep s OpEvent.stopOp).processing = s.processing
    ∧ e ∉ (opRun (opStep s OpEvent.stopOp) evs).processed := by
  refine ⟨rfl, rfl, rfl, ?_⟩
  have h0 : e ∉ (opStep s OpEvent.stopOp).queue := by
    show e ∉ ([] : List Nat)
    simp
  exact (opRun_keeps_event_unprocessed e evs (opStep s OpEvent.stopOp) h0 hp hc henq).2.1

/-- Concrete pre-stop state for the C9 witness: two queued events, one
handler in flight. -/
def opStateW : OpState :=
  { openSubscriptions := 1, pendingTimers := 0, queue := [7, 8],
    processing := some 1, processed := [1], isProcessingQueue := true,
    stopRequested := false }

/-- Scheduler continuation for the C9 witness: the in-flight handler
finishes, new work arrives and is drained. -/
def opEvsW : List OpEvent :=
  [OpEvent.finishHandler, OpEvent.enqueue 9, OpEvent.startNext,
   OpEvent.finishHandler]

/-- Witness for C9 at a concrete state and continuation. -/
theorem stop_discards_pending_events_witness :
    (7 ∈ opStateW.queue ∧ 7 ∉ opStateW.processed
      ∧ opStateW.processing ≠ some 7
      ∧ ∀ ev ∈ opEvsW, ev ≠ OpEvent.enqueue 7)
    ∧ ((opStep opStateW OpEvent.stopOp).queue = []
      ∧ (opStep opStateW OpEvent.stopOp).isProcessingQueue = false
      ∧ (opStep opStateW OpEvent.stopOp).processing = opStateW.processing
      ∧ 7 ∉ (opRun (opStep opStateW OpEvent.stopOp) opEvsW).processed) :=
  ⟨⟨by decide, by decide, by decide, by decide⟩,
    stop_discards_pending_events opStateW 7 opEvsW (by decide) (by decide)
      (by decide) (by decide)⟩

/-- Backoff recurrence of `watchResource` (custom-resource-operator.ts
lines 104 to 113): `restartDelay` starts at the configured
`restartTimeout`; each failure schedules the retry with the current value
and then sets `restartDelay = min(restartDelay * backOffFactor,
maxRestartTimeout)`.  `restartDelayOnFailure t f m n` is the delay
scheduled at the (n+1)-th consecutive failure.  JS numbers are modelled
as rationals. -/
def restartDelayOnFailure (restartTimeout backOffFactor maxRestartTimeout : ℚ) :
    Nat → ℚ
  | 0 => restartTimeout
  | n + 1 =>
    min (restartDelayOnFailure restartTimeout backOffFactor maxRestartTimeout n
          * backOffFactor)
      maxRestartTimeout

theorem restartDelay_closed_form (t f m : ℚ) (ht : 0 ≤ t) (htm : t ≤ m)
    (hf : 1 ≤ f) :
    ∀ n : Nat, restartDelayOnFailure t f m n = min (t * f ^ n) m := by
  have hm : (0 : ℚ) ≤ m := le_trans ht htm
  intro n
  induction n with
  | zero =>
    simp [restartDelayOnFailure, min_eq_left htm]
  | succ n ih =>
    rw [restartDelayOnFailure, ih]
    rcases le_total (t * f ^ n) m with hle | hge
    · rw [min_eq_left hle, pow_succ, ← mul_assoc]
    · have h1 : m ≤ m * f := le_mul_of_one_le_right hm hf
      have h2 : m ≤ t * f ^ (n + 1) := by
        calc m = m * 1 := (mul_one m).symm
        _ ≤ (t * f ^ n) * f :=
          mul_le_mul hge hf (by norm_num) (le_trans hm hge)
        _ = t * f ^ (n + 1) := by rw [pow_succ, mul_assoc]
      rw [min_eq_right hge, min_eq_right h2, min_eq_right h1]

/-- C6: with a configured initial delay between 0 and the maximum and a
backoff factor of at least 1, the first retry after a subscription
failure is scheduled after exactly the configured initial delay, and the
delay scheduled at the k-th consecutive failure is
min(initialDelay * backOffFactor ^ (k - 1), maxRestartTimeout). -/
theorem restartDelay_spec (t f m : ℚ) (ht : 0 ≤ t) (htm : t ≤ m) (hf : 1 ≤ f) :
    restartDelayOnFailure t f m 0 = t
    ∧ ∀ k : Nat, 1 ≤ k →
        restartDelayOnFailure t f m (k - 1) = min (t * f ^ (k - 1)) m :=
  ⟨rfl, fun k _ => restartDelay_closed_form t f m ht htm hf (k - 1)⟩

/-- Witness for C6 with initial delay 1000, factor 2, maximum 8000: at
the fifth consecutive failure the scheduled delay is capped at 8000. -/
theorem restartDelay_spec_witness :
    ((0 : ℚ) ≤ 1000 ∧ (1000 : ℚ) ≤ 8000 ∧ (1 : ℚ) ≤ 2)
    ∧ restartDelayOnFailure 1000 2 8000 0 = 1000
    ∧ restartDelayOnFailure 1000 2 8000 (5 - 1) = min (1000 * 2 ^ (5 - 1)) 8000
    ∧ min ((1000 : ℚ) * 2 ^ (5 - 1)) 8000 = 8000 :=
  ⟨⟨by norm_num, by norm_num, by norm_num⟩,
    (restartDelay_spec 1000 2 8000 (by norm_num) (by norm_num) (by norm_num)).1,
    (restartDelay_spec 1000 2 8000 (by norm_num) (by norm_num) (by norm_num)).2
      5 (by norm_num),
    by norm_num⟩

end ArgocdNotifier
